import Mathlib

/-!
Verification of the Run Session Registry and Event Broadcast/Replay core.

Two servers are modelled, each in its own namespace:

* `Web` — the multi-session SSE server (`runWebServer`): session registry,
  event log, broadcast/replay relay, and run orchestrator.
* `SF` — the single-flight server (`runCodexWeb`): admission control with at
  most one outstanding run and a buffered JSON response.

JavaScript runs on a single cooperative scheduler, so every handler section
between awaits executes atomically; each such section is modelled as a pure
function on an explicit server state.  Session objects are aliased by the
registry `Map` and by closures, so the model keeps a heap of session objects
(keyed by identifier) separate from the set of identifiers currently present
in the `Map`.  `randomUUID` is collision-free for the life of the process and
is modelled by a counter of fresh identifiers.
-/

/-- JavaScript whitespace characters recognised by `String.prototype.trim`. -/
def isJsWhitespace (c : Char) : Bool :=
  c = ' ' || c = '\t' || c = '\n' || c = '\r' || c = '\x0b' || c = '\x0c'

/-- Model of `String.prototype.trim`: drop whitespace at both ends. -/
def jsTrim (s : String) : String :=
  String.mk (((s.data.dropWhile isJsWhitespace).reverse.dropWhile isJsWhitespace).reverse)

/-- A request-body field as seen by the handlers: `typeof v === "string"`
either holds (a string) or does not (any other value). -/
inductive JsVal
  | jstr (s : String)
  | other
  deriving DecidableEq, Repr

/-- A value thrown by the executor: either an `Error` object carrying a
message, or any other thrown value (with its `String(error)` rendering). -/
inductive JsError
  | errorObj (message : String)
  | nonError (asString : String)
  deriving DecidableEq, Repr

/-- Association-list lookup, modelling `Map.get`. -/
def getAssoc {κ α : Type} [DecidableEq κ] : List (κ × α) → κ → Option α
  | [], _ => none
  | (k2, v) :: t, k => if k2 = k then some v else getAssoc t k

/-- Association-list update, modelling `Map.set`: replace in place or append. -/
def setAssoc {κ α : Type} [DecidableEq κ] : List (κ × α) → κ → α → List (κ × α)
  | [], k, v => [(k, v)]
  | (k2, v2) :: t, k, v => if k2 = k then (k, v) :: t else (k2, v2) :: setAssoc t k v

namespace Web

/-- Payloads carried by session events: `{text}`, `{loading}`, `{message}`. -/
inductive EventData
  | textData (text : String)
  | loadingData (loading : Bool)
  | messageData (message : String)
  deriving DecidableEq, Repr

/-- Escape a character for a JSON string literal (`JSON.stringify`). -/
def jsonEscapeChar (c : Char) : String :=
  if c = '"' then "\\\""
  else if c = '\\' then "\\\\"
  else if c = '\n' then "\\n"
  else if c = '\r' then "\\r"
  else if c = '\t' then "\\t"
  else String.mk [c]

/-- Escape a string for a JSON string literal. -/
def jsonEscape (s : String) : String :=
  s.data.foldl (fun acc c => acc ++ jsonEscapeChar c) ""

/-- Model of `JSON.stringify(event.data)` for the three payload shapes. -/
def stringifyData : EventData → String
  | .textData t => "\x7b\"text\":\"" ++ jsonEscape t ++ "\"\x7d"
  | .loadingData b => "\x7b\"loading\":" ++ (if b then "true" else "false") ++ "\x7d"
  | .messageData m => "\x7b\"message\":\"" ++ jsonEscape m ++ "\"\x7d"

/-- A `SessionEvent`: a kind tag plus an optional payload. -/
structure SessionEvent where
  type : String
  data? : Option EventData
  deriving DecidableEq, Repr

/-- A `Session`: identifier, append-only event log, set of attached listener
connections (connection handles are numbered), and the completion flag. -/
structure Session where
  id : Nat
  events : List SessionEvent
  listeners : List Nat
  completed : Bool
  deriving DecidableEq, Repr

/-- Whole-server state: the heap of session objects ever created (objects are
aliased by closures and never deallocated while referenced), the set of
identifiers currently in the `sessions` map, the bytes written so far to each
connection (as the list of `res.write` chunks), the fresh-identifier counter,
and the number of executor invocations made so far. -/
structure ServerState where
  heap : List (Nat × Session)
  registry : List Nat
  conns : List (Nat × List String)
  nextId : Nat
  execCount : Nat
  deriving DecidableEq, Repr

/-- The state at process start: no sessions, no connections. -/
def initState : ServerState := ⟨[], [], [], 0, 0⟩

/-- Chunks written so far to connection `c` (absent connections are empty). -/
def connBuf (st : ServerState) (c : Nat) : List String :=
  (getAssoc st.conns c).getD []

/-- Append chunks to the write buffer of connection `c`. -/
def connWrite (c : Nat) (chunks : List String) (st : ServerState) : ServerState :=
  { st with conns := setAssoc st.conns c (connBuf st c ++ chunks) }

/-- The `res.write` calls made by `writeEvent` for one event: the event line,
a data line only when the event carries data, then a blank line. -/
def writeEventChunks (e : SessionEvent) : List String :=
  ["event: " ++ e.type ++ "\n"]
    ++ (match e.data? with
        | some d => ["data: " ++ stringifyData d ++ "\n"]
        | none => [])
    ++ ["\n"]

/-- Model of `writeEvent(res, event)`: write the frame to connection `c`. -/
def writeEvent (c : Nat) (e : SessionEvent) (st : ServerState) : ServerState :=
  connWrite c (writeEventChunks e) st

/-- Session-object lookup through a closure-held reference. -/
def heapGet (st : ServerState) (sid : Nat) : Option Session :=
  getAssoc st.heap sid

/-- Mutate the session object with identifier `sid`. -/
def heapSet (sid : Nat) (s : Session) (st : ServerState) : ServerState :=
  { st with heap := setAssoc st.heap sid s }

/-- Model of `sessions.get(id)`: only identifiers present in the map resolve. -/
def sessionsGet (st : ServerState) (sid : Nat) : Option Session :=
  if st.registry.contains sid then heapGet st sid else none

/-- Model of `sessions.delete(id)` (map keys are unique). -/
def sessionsDelete (sid : Nat) (st : ServerState) : ServerState :=
  { st with registry := st.registry.filter (fun x => x ≠ sid) }

/-- Model of `Set.add`: no-op when the element is already present. -/
def setAdd (l : List Nat) (c : Nat) : List Nat :=
  if l.contains c then l else l ++ [c]

/-- Model of `Set.delete` (set elements are unique). -/
def setDelete (l : List Nat) (c : Nat) : List Nat :=
  l.filter (fun x => x ≠ c)

/-- The fan-out loop of `emit`: `for (const listener of session.listeners)
writeEvent(listener, event)`. -/
def broadcast (e : SessionEvent) (l : List Nat) (st : ServerState) : ServerState :=
  l.foldl (fun acc c => writeEvent c e acc) st

/-- Model of `emit(session, event)`: append to the log, then push a framed
copy to every attached listener. -/
def emit (sid : Nat) (e : SessionEvent) (st : ServerState) : ServerState :=
  match heapGet st sid with
  | none => st
  | some s =>
      broadcast e s.listeners (heapSet sid { s with events := s.events ++ [e] } st)

/-- Model of `createSession()`: fresh identifier, empty log, empty listener
set, `completed = false`; inserted into the map. -/
def createSession (st : ServerState) : Session × ServerState :=
  let s : Session := ⟨st.nextId, [], [], false⟩
  (s, { heapSet st.nextId s st with
          registry := st.registry ++ [st.nextId],
          nextId := st.nextId + 1 })

/-- Model of `cleanupSessionIfIdle(session)`: remove the session from the map
when it is completed and unobserved. -/
def cleanupSessionIfIdle (sid : Nat) (st : ServerState) : ServerState :=
  match heapGet st sid with
  | none => st
  | some s => if s.completed && s.listeners.isEmpty then sessionsDelete sid st else st

/-- The replay loop of the stream handler: `for (const event of
session.events) writeEvent(res, event)`. -/
def replayTo (c : Nat) (events : List SessionEvent) (st : ServerState) : ServerState :=
  events.foldl (fun acc e => writeEvent c e acc) st

/-- Model of the `GET /api/run/:id/stream` handler: 404 when the identifier is
unknown; otherwise add the connection to the listener set and replay the log.
Returns the HTTP status together with the new state.  (The periodic
`: keep-alive` comment frames are timer-driven, carry no event, and are not
modelled.) -/
def handleStream (sid : Nat) (c : Nat) (st : ServerState) : Nat × ServerState :=
  match sessionsGet st sid with
  | none => (404, st)
  | some s =>
      (200, replayTo c s.events (heapSet sid { s with listeners := setAdd s.listeners c } st))

/-- Model of the stream request close handler: remove the connection from the
listener set, then reclaim the session if idle. -/
def handleClose (sid : Nat) (c : Nat) (st : ServerState) : ServerState :=
  match heapGet st sid with
  | none => st
  | some s =>
      cleanupSessionIfIdle sid
        (heapSet sid { s with listeners := setDelete s.listeners c } st)

/-- Executor callbacks observed by the orchestrator of this server. -/
inductive AgentCallback
  | onItem (text : String)
  | onLoading (loading : Bool)
  deriving DecidableEq, Repr

/-- The event emitted for each executor callback. -/
def callbackEvent : AgentCallback → SessionEvent
  | .onItem t => ⟨"item", some (.textData t)⟩
  | .onLoading b => ⟨"status", some (.loadingData b)⟩

/-- Message extraction in the catch block:
`error instanceof Error ? error.message : "Unexpected error"`. -/
def errorMessage : JsError → String
  | .errorObj m => m
  | .nonError _ => "Unexpected error"

/-- One executor invocation, specified at its interface boundary: the
callbacks it fires, in order, followed by how it resolves (`none` = resolves
normally, `some e` = rejects with thrown value `e`). -/
structure AgentRun where
  callbacks : List AgentCallback
  outcome : Option JsError
  deriving DecidableEq, Repr

/-- Set `session.completed = true` (the finally block). -/
def setCompleted (sid : Nat) (st : ServerState) : ServerState :=
  match heapGet st sid with
  | none => st
  | some s => heapSet sid { s with completed := true } st

/-- Model of `runAgentForSession`: invoke the executor (counted), translate
its callbacks into emitted events, emit the terminal `complete` or `error`
event, mark the session completed, and reclaim it if idle. -/
def runAgentForSession (sid : Nat) (_prompt : String) (run : AgentRun)
    (st : ServerState) : ServerState :=
  let st1 := run.callbacks.foldl (fun acc cb => emit sid (callbackEvent cb) acc)
    { st with execCount := st.execCount + 1 }
  let st2 := match run.outcome with
    | none => emit sid ⟨"complete", none⟩ st1
    | some err => emit sid ⟨"error", some (.messageData (errorMessage err))⟩ st1
  cleanupSessionIfIdle sid (setCompleted sid st2)

/-- The request body of `POST /api/run` as the handler sees it: `req.body`
may be absent, and its `prompt` field may be absent or not a string. -/
structure ReqBody where
  prompt? : Option JsVal
  deriving DecidableEq, Repr

/-- The prompt extraction of the handler:
`typeof req.body?.prompt === "string" ? req.body.prompt.trim() : ""`. -/
def promptOf (body? : Option ReqBody) : String :=
  match body? with
  | some b =>
      match b.prompt? with
      | some (.jstr s) => jsTrim s
      | _ => ""
  | none => ""

/-- The response of `POST /api/run`. -/
inductive RunResponse
  | badRequest (error : String)
  | okSession (sessionId : Nat)
  deriving DecidableEq, Repr

/-- Model of the `POST /api/run` handler: validate the prompt before creating
any session; on success answer with the identifier and run the agent in the
background (the background task is part of the same cooperative schedule). -/
def handleRun (body? : Option ReqBody) (run : AgentRun) (st : ServerState) :
    RunResponse × ServerState :=
  let prompt := promptOf body?
  if prompt = "" then (.badRequest "Prompt is required", st)
  else
    let (s, st1) := createSession st
    (.okSession s.id, runAgentForSession s.id prompt run st1)

/-- Interleaving points on one session observed by the relay. -/
inductive Op
  | emitEv (e : SessionEvent)
  | attach (c : Nat)
  | close (c : Nat)
  deriving DecidableEq, Repr

/-- One scheduler step acting on session `sid`. -/
def step (sid : Nat) (st : ServerState) : Op → ServerState
  | .emitEv e => emit sid e st
  | .attach c => (handleStream sid c st).2
  | .close c => handleClose sid c st

/-- Run a sequence of steps on session `sid`. -/
def runOps (sid : Nat) (ops : List Op) (st : ServerState) : ServerState :=
  ops.foldl (step sid) st

/-- The events emitted by a step sequence, in emission order. -/
def emitsOf (ops : List Op) : List SessionEvent :=
  ops.filterMap fun op =>
    match op with
    | .emitEv e => some e
    | _ => none

/-- A step sequence that never attaches or closes connection `c`. -/
def avoids (c : Nat) (ops : List Op) : Bool :=
  ops.all fun op =>
    match op with
    | .attach c2 => c2 != c
    | .close c2 => c2 != c
    | .emitEv _ => true

/-- Whole-server interleaving points, across all sessions. -/
inductive GOp
  | createOp
  | emitOp (sid : Nat) (e : SessionEvent)
  | attachOp (sid : Nat) (c : Nat)
  | closeOp (sid : Nat) (c : Nat)
  | runOp (sid : Nat) (prompt : String) (run : AgentRun)
  deriving DecidableEq, Repr

/-- One whole-server scheduler step. -/
def gstep (st : ServerState) : GOp → ServerState
  | .createOp => (createSession st).2
  | .emitOp sid e => emit sid e st
  | .attachOp sid c => (handleStream sid c st).2
  | .closeOp sid c => handleClose sid c st
  | .runOp sid p run => runAgentForSession sid p run st

/-- Run a sequence of whole-server steps. -/
def grun (ops : List GOp) (st : ServerState) : ServerState :=
  ops.foldl gstep st

/-- The registry invariant: identifiers are allocated below the counter, and
no registered session satisfies the destroy condition (completed and
unobserved) — the condition is re-checked and acted on at every point where
it can become true. -/
def InvReg (st : ServerState) : Prop :=
  (∀ k s, getAssoc st.heap k = some s → k < st.nextId) ∧
  (∀ sid, sid ∈ st.registry →
    ∃ s, heapGet st sid = some s ∧ ¬(s.completed = true ∧ s.listeners = []))

end Web

namespace SF

/-- JSON values appearing in the single-flight response bodies.  The result
items pushed by `onItem` are opaque `ResponseItem` values, modelled by an
opaque token; loading entries are the pushed `(type, data)` records. -/
inductive JVal
  | jstr (s : String)
  | jnum (n : Nat)
  | jbool (b : Bool)
  | jitems (items : List String)
  | jloading (entries : List (String × Bool))
  | jsandbox (status : String)
  deriving DecidableEq, Repr

/-- The request body of the single-flight `POST /api/run`:
`const (prompt, images, fullStdout) = req.body ?? {}` (images are opaque and
only forwarded; `fullStdout` is coerced with `Boolean`). -/
structure SFBody where
  prompt? : Option JsVal
  fullStdout : Bool
  deriving DecidableEq, Repr

/-- The per-request buffers: `results`, `loadingStates`, `lastResponseId`,
freshly allocated inside the handler. -/
structure PendingRun where
  results : List String
  loadingStates : List (String × Bool)
  lastResponseId? : Option String
  deriving DecidableEq, Repr

/-- Single-flight server state: whether `activeRun` is non-null, and the
number of executor invocations made so far. -/
structure SFState where
  activeRun : Bool
  execCount : Nat
  deriving DecidableEq, Repr

/-- Executor callbacks observed by the single-flight handler. -/
inductive SFCallback
  | onItem (item : String)
  | onLoading (payload : Bool)
  | onLastResponseId (id : String)
  deriving DecidableEq, Repr

/-- One executor invocation: its callbacks in order, then its resolution
(`none` = resolves, `some e` = rejects with thrown value `e`). -/
structure SFRun where
  callbacks : List SFCallback
  outcome : Option JsError
  deriving DecidableEq, Repr

/-- An HTTP response: status code and JSON body as an ordered field list
(fields whose value is `undefined` are dropped by `JSON.stringify` and are
therefore absent from the list). -/
structure SFResp where
  status : Nat
  body : List (String × JVal)
  deriving DecidableEq, Repr

/-- Message extraction in the catch block:
`error instanceof Error ? error.message : String(error)`. -/
def sfErrorMessage : JsError → String
  | .errorObj m => m
  | .nonError s => s

/-- The effect of one callback on the per-request buffers. -/
def applyCallback (p : PendingRun) : SFCallback → PendingRun
  | .onItem it => { p with results := p.results ++ [it] }
  | .onLoading b => { p with loadingStates := p.loadingStates ++ [("loading", b)] }
  | .onLastResponseId i => { p with lastResponseId? := some i }

/-- The 409 conflict response of the admission check. -/
def conflictResp : SFResp :=
  ⟨409, [("error", .jstr "Another run is already in progress.")]⟩

/-- The 400 validation response. -/
def promptRequiredResp : SFResp :=
  ⟨400, [("error", .jstr "Prompt is required.")]⟩

/-- Prompt extraction:
`typeof prompt === "string" ? prompt.trim() : ""`. -/
def sfPromptOf (body? : Option SFBody) : String :=
  match body? with
  | some b =>
      match b.prompt? with
      | some (.jstr s) => jsTrim s
      | _ => ""
  | none => ""

/-- Outcome of the synchronous prefix of the handler (up to the first await):
either an immediate rejection response, or an agent started with fresh
buffers. -/
inductive SFPhase1
  | rejected (r : SFResp)
  | started (p : PendingRun)
  deriving DecidableEq, Repr

/-- The synchronous prefix of the `POST /api/run` handler: the `activeRun`
conflict check, then prompt validation, then agent construction (counted as
an executor invocation) with `activeRun` set. -/
def sfStart (body? : Option SFBody) (st : SFState) : SFPhase1 × SFState :=
  if st.activeRun then (.rejected conflictResp, st)
  else if sfPromptOf body? = "" then (.rejected promptRequiredResp, st)
  else
    (.started ⟨[], [], none⟩,
     { st with activeRun := true, execCount := st.execCount + 1 })

/-- The `fullStdout` flag echoed in the success response (`Boolean(fullStdout)`). -/
def fullStdoutOf (body? : Option SFBody) : Bool :=
  match body? with
  | some b => b.fullStdout
  | none => false

/-- The success response body, in the order the handler writes it:
`items, loading, lastResponseId, durationMs, sandbox, fullStdout`
(`lastResponseId` is dropped when it was never reported). -/
def successBody (p : PendingRun) (durationMs : Nat) (sandbox : String)
    (fullStdout : Bool) : List (String × JVal) :=
  [("items", .jitems p.results), ("loading", .jloading p.loadingStates)]
    ++ (match p.lastResponseId? with
        | some i => [("lastResponseId", .jstr i)]
        | none => [])
    ++ [("durationMs", .jnum durationMs), ("sandbox", .jsandbox sandbox),
        ("fullStdout", .jbool fullStdout)]

/-- The error response body, in the order the handler writes it:
`error, items, durationMs, sandbox`. -/
def errorBody (e : JsError) (p : PendingRun) (durationMs : Nat)
    (sandbox : String) : List (String × JVal) :=
  [("error", .jstr (sfErrorMessage e)), ("items", .jitems p.results),
   ("durationMs", .jnum durationMs), ("sandbox", .jsandbox sandbox)]

/-- Resolution of an admitted run: apply the callbacks to the buffers, clear
`activeRun` (the finally handler), and build the 200 or 500 response. -/
def sfResolve (p : PendingRun) (run : SFRun) (durationMs : Nat) (sandbox : String)
    (fullStdout : Bool) (st : SFState) : SFResp × SFState :=
  let p2 := run.callbacks.foldl applyCallback p
  let st2 := { st with activeRun := false }
  match run.outcome with
  | none => (⟨200, successBody p2 durationMs sandbox fullStdout⟩, st2)
  | some e => (⟨500, errorBody e p2 durationMs sandbox⟩, st2)

/-- The whole `POST /api/run` handler, start to response. -/
def handleRunSF (body? : Option SFBody) (run : SFRun) (durationMs : Nat)
    (sandbox : String) (st : SFState) : SFResp × SFState :=
  match sfStart body? st with
  | (.rejected r, st2) => (r, st2)
  | (.started p, st2) => sfResolve p run durationMs sandbox (fullStdoutOf body?) st2

/-- The items produced by a callback sequence, in callback order. -/
def itemsOfCallbacks (cbs : List SFCallback) : List String :=
  cbs.filterMap fun cb =>
    match cb with
    | .onItem it => some it
    | _ => none

/-- The loading entries pushed by a callback sequence, in callback order. -/
def loadingOfCallbacks (cbs : List SFCallback) : List (String × Bool) :=
  cbs.filterMap fun cb =>
    match cb with
    | .onLoading b => some ("loading", b)
    | _ => none

/-- The last response identifier after a callback sequence, starting from a
previously recorded one. -/
def lastIdFrom (acc : Option String) (cbs : List SFCallback) : Option String :=
  cbs.foldl
    (fun acc cb =>
      match cb with
      | .onLastResponseId i => some i
      | _ => acc)
    acc

/-- The items produced by one invocation, in callback order. -/
def sfItemsOf (run : SFRun) : List String :=
  itemsOfCallbacks run.callbacks

/-- The loading transitions produced by one invocation, in callback order. -/
def sfLoadingOf (run : SFRun) : List (String × Bool) :=
  loadingOfCallbacks run.callbacks

/-- The last response identifier reported by one invocation, if any. -/
def sfLastIdOf (run : SFRun) : Option String :=
  lastIdFrom none run.callbacks

end SF

section AssocLemmas

variable {κ α : Type} [DecidableEq κ]

theorem getAssoc_setAssoc_self (l : List (κ × α)) (k : κ) (v : α) :
    getAssoc (setAssoc l k v) k = some v := by
  induction l with
  | nil => simp [setAssoc, getAssoc]
  | cons p t ih =>
      obtain ⟨k2, v2⟩ := p
      by_cases h : k2 = k
      · simp [setAssoc, getAssoc, h]
      · simp [setAssoc, getAssoc, h, ih]

theorem getAssoc_setAssoc_ne (l : List (κ × α)) (k k2 : κ) (v : α) (h : k2 ≠ k) :
    getAssoc (setAssoc l k v) k2 = getAssoc l k2 := by
  induction l with
  | nil =>
      have hk : ¬(k = k2) := fun hh => h hh.symm
      simp [setAssoc, getAssoc, hk]
  | cons p t ih =>
      obtain ⟨k3, v3⟩ := p
      by_cases hk : k3 = k
      · subst hk
        have hne : ¬(k3 = k2) := fun hh => h hh.symm
        simp [setAssoc, getAssoc, hne]
      · simp [setAssoc, getAssoc, hk, ih]

theorem setAssoc_self_of_get (l : List (κ × α)) (k : κ) (v : α)
    (h : getAssoc l k = some v) : setAssoc l k v = l := by
  induction l with
  | nil => simp [getAssoc] at h
  | cons p t ih =>
      obtain ⟨k2, v2⟩ := p
      by_cases hk : k2 = k
      · subst hk
        simp [getAssoc] at h
        simp [setAssoc, h]
      · simp [getAssoc, hk] at h
        simp [setAssoc, hk, ih h]

end AssocLemmas

namespace Web

theorem connWrite_heap (c : Nat) (ch : List String) (st : ServerState) :
    (connWrite c ch st).heap = st.heap := rfl

theorem connWrite_registry (c : Nat) (ch : List String) (st : ServerState) :
    (connWrite c ch st).registry = st.registry := rfl

theorem connBuf_connWrite_self (c : Nat) (ch : List String) (st : ServerState) :
    connBuf (connWrite c ch st) c = connBuf st c ++ ch := by
  simp [connBuf, connWrite, getAssoc_setAssoc_self]

theorem connBuf_connWrite_ne (c c2 : Nat) (ch : List String) (st : ServerState)
    (h : c2 ≠ c) : connBuf (connWrite c ch st) c2 = connBuf st c2 := by
  simp [connBuf, connWrite, getAssoc_setAssoc_ne _ _ _ _ h]

theorem broadcast_heap (e : SessionEvent) (l : List Nat) (st : ServerState) :
    (broadcast e l st).heap = st.heap := by
  induction l generalizing st with
  | nil => rfl
  | cons c t ih => simp [broadcast] at ih ⊢; rw [ih]; rfl

theorem broadcast_registry (e : SessionEvent) (l : List Nat) (st : ServerState) :
    (broadcast e l st).registry = st.registry := by
  induction l generalizing st with
  | nil => rfl
  | cons c t ih => simp [broadcast] at ih ⊢; rw [ih]; rfl

theorem broadcast_nextId (e : SessionEvent) (l : List Nat) (st : ServerState) :
    (broadcast e l st).nextId = st.nextId := by
  induction l generalizing st with
  | nil => rfl
  | cons c t ih => simp [broadcast] at ih ⊢; rw [ih]; rfl

theorem broadcast_execCount (e : SessionEvent) (l : List Nat) (st : ServerState) :
    (broadcast e l st).execCount = st.execCount := by
  induction l generalizing st with
  | nil => rfl
  | cons c t ih => simp [broadcast] at ih ⊢; rw [ih]; rfl

theorem connBuf_broadcast_not_mem (e : SessionEvent) (l : List Nat)
    (st : ServerState) (c : Nat) (h : c ∉ l) :
    connBuf (broadcast e l st) c = connBuf st c := by
  induction l generalizing st with
  | nil => rfl
  | cons c2 t ih =>
      simp at h
      simp [broadcast] at ih ⊢
      rw [ih _ h.2, writeEvent, connBuf_connWrite_ne _ _ _ _ h.1]

theorem connBuf_broadcast_count_one (e : SessionEvent) (l : List Nat)
    (st : ServerState) (c : Nat) (h : l.count c = 1) :
    connBuf (broadcast e l st) c = connBuf st c ++ writeEventChunks e := by
  induction l generalizing st with
  | nil => simp [List.count_nil] at h
  | cons c2 t ih =>
      have hstep : broadcast e (c2 :: t) st = broadcast e t (writeEvent c2 e st) := rfl
      rw [hstep]
      by_cases hc : c2 = c
      · subst hc
        have hzero : t.count c2 = 0 := by
          have := List.count_cons_self c2 t
          omega
        have hnot : c2 ∉ t := by
          simpa using List.count_eq_zero.mp hzero
        rw [connBuf_broadcast_not_mem _ _ _ _ hnot]
        simp only [writeEvent]
        rw [connBuf_connWrite_self]
      · have ht : t.count c = 1 := by
          rw [List.count_cons] at h
          simpa [hc] using h
        rw [ih _ ht]
        simp only [writeEvent]
        rw [connBuf_connWrite_ne c2 c _ _ (Ne.symm hc)]

theorem replayTo_heap (c : Nat) (evs : List SessionEvent) (st : ServerState) :
    (replayTo c evs st).heap = st.heap := by
  induction evs generalizing st with
  | nil => rfl
  | cons e t ih => simp [replayTo] at ih ⊢; rw [ih]; rfl

theorem replayTo_registry (c : Nat) (evs : List SessionEvent) (st : ServerState) :
    (replayTo c evs st).registry = st.registry := by
  induction evs generalizing st with
  | nil => rfl
  | cons e t ih => simp [replayTo] at ih ⊢; rw [ih]; rfl

theorem connBuf_replayTo_self (c : Nat) (evs : List SessionEvent) (st : ServerState) :
    connBuf (replayTo c evs st) c = connBuf st c ++ (evs.map writeEventChunks).flatten := by
  induction evs generalizing st with
  | nil => simp [replayTo]
  | cons e t ih =>
      simp [replayTo] at ih ⊢
      rw [ih, writeEvent, connBuf_connWrite_self, List.append_assoc]

theorem connBuf_replayTo_ne (c c2 : Nat) (evs : List SessionEvent)
    (st : ServerState) (h : c2 ≠ c) :
    connBuf (replayTo c evs st) c2 = connBuf st c2 := by
  induction evs generalizing st with
  | nil => rfl
  | cons e t ih =>
      simp [replayTo] at ih ⊢
      rw [ih, writeEvent, connBuf_connWrite_ne _ _ _ _ h]

theorem heapGet_heapSet_self (sid : Nat) (s : Session) (st : ServerState) :
    heapGet (heapSet sid s st) sid = some s := by
  simp [heapGet, heapSet, getAssoc_setAssoc_self]

theorem heapGet_heapSet_ne (sid sid2 : Nat) (s : Session) (st : ServerState)
    (h : sid2 ≠ sid) : heapGet (heapSet sid s st) sid2 = heapGet st sid2 := by
  simp [heapGet, heapSet, getAssoc_setAssoc_ne _ _ _ _ h]

theorem heapSet_conns (sid : Nat) (s : Session) (st : ServerState) :
    (heapSet sid s st).conns = st.conns := rfl

theorem heapSet_registry (sid : Nat) (s : Session) (st : ServerState) :
    (heapSet sid s st).registry = st.registry := rfl

theorem cleanup_heap (sid : Nat) (st : ServerState) :
    (cleanupSessionIfIdle sid st).heap = st.heap := by
  unfold cleanupSessionIfIdle
  cases heapGet st sid with
  | none => rfl
  | some s =>
      by_cases h : s.completed && s.listeners.isEmpty
      · simp [h, sessionsDelete]
      · simp [h]

theorem cleanup_conns (sid : Nat) (st : ServerState) :
    (cleanupSessionIfIdle sid st).conns = st.conns := by
  unfold cleanupSessionIfIdle
  cases heapGet st sid with
  | none => rfl
  | some s =>
      by_cases h : s.completed && s.listeners.isEmpty
      · simp [h, sessionsDelete]
      · simp [h]

theorem cleanup_nextId (sid : Nat) (st : ServerState) :
    (cleanupSessionIfIdle sid st).nextId = st.nextId := by
  unfold cleanupSessionIfIdle
  cases heapGet st sid with
  | none => rfl
  | some s =>
      by_cases h : s.completed && s.listeners.isEmpty
      · simp [h, sessionsDelete]
      · simp [h]

theorem cleanup_execCount (sid : Nat) (st : ServerState) :
    (cleanupSessionIfIdle sid st).execCount = st.execCount := by
  unfold cleanupSessionIfIdle
  cases heapGet st sid with
  | none => rfl
  | some s =>
      by_cases h : s.completed && s.listeners.isEmpty
      · simp [h, sessionsDelete]
      · simp [h]

theorem setDelete_idem (l : List Nat) (c : Nat) :
    setDelete (setDelete l c) c = setDelete l c := by
  simp [setDelete, List.filter_filter]

theorem sessionsDelete_idem (sid : Nat) (st : ServerState) :
    sessionsDelete sid (sessionsDelete sid st) = sessionsDelete sid st := by
  simp [sessionsDelete, List.filter_filter]

theorem heapGet_sessionsDelete (sid sid2 : Nat) (st : ServerState) :
    heapGet (sessionsDelete sid2 st) sid = heapGet st sid := rfl

theorem cleanup_idem (sid : Nat) (st : ServerState) :
    cleanupSessionIfIdle sid (cleanupSessionIfIdle sid st) = cleanupSessionIfIdle sid st := by
  cases hg : heapGet st sid with
  | none => simp [cleanupSessionIfIdle, hg]
  | some s =>
      by_cases h : (s.completed && s.listeners.isEmpty) = true
      · have hg2 : heapGet (sessionsDelete sid st) sid = some s := hg
        simp [cleanupSessionIfIdle, hg, h, hg2, sessionsDelete_idem]
      · simp [cleanupSessionIfIdle, hg, h]

theorem heapSet_self_of_get (sid : Nat) (s : Session) (st : ServerState)
    (h : heapGet st sid = some s) : heapSet sid s st = st := by
  have hh : setAssoc st.heap sid s = st.heap := setAssoc_self_of_get _ _ _ h
  simp [heapSet, hh]

theorem handleClose_idem (sid c : Nat) (st : ServerState) :
    handleClose sid c (handleClose sid c st) = handleClose sid c st := by
  cases hg : heapGet st sid with
  | none => simp [handleClose, hg]
  | some s =>
      have hd : setDelete (setDelete s.listeners c) c = setDelete s.listeners c :=
        setDelete_idem _ _
      by_cases h : (s.completed && (setDelete s.listeners c).isEmpty) = true
      · have hg1 : heapGet
            (sessionsDelete sid (heapSet sid { s with listeners := setDelete s.listeners c } st))
            sid = some { s with listeners := setDelete s.listeners c } :=
          heapGet_heapSet_self _ _ _
        have hset : heapSet sid { s with listeners := setDelete s.listeners c }
            (sessionsDelete sid (heapSet sid { s with listeners := setDelete s.listeners c } st))
            = sessionsDelete sid (heapSet sid { s with listeners := setDelete s.listeners c } st) :=
          heapSet_self_of_get _ _ _ hg1
        simp [handleClose, hg, cleanupSessionIfIdle, heapGet_heapSet_self, h, hg1, hd, hset,
          sessionsDelete_idem]
      · have hg1 : heapGet (heapSet sid { s with listeners := setDelete s.listeners c } st) sid
            = some { s with listeners := setDelete s.listeners c } :=
          heapGet_heapSet_self _ _ _
        have hset : heapSet sid { s with listeners := setDelete s.listeners c }
            (heapSet sid { s with listeners := setDelete s.listeners c } st)
            = heapSet sid { s with listeners := setDelete s.listeners c } st :=
          heapSet_self_of_get _ _ _ hg1
        simp [handleClose, hg, cleanupSessionIfIdle, heapGet_heapSet_self, h, hg1, hd, hset]

theorem connBuf_heapSet (sid : Nat) (s : Session) (st : ServerState) (c : Nat) :
    connBuf (heapSet sid s st) c = connBuf st c := rfl

theorem sessionsGet_some {st : ServerState} {sid : Nat} {s : Session}
    (h : sessionsGet st sid = some s) :
    heapGet st sid = some s ∧ st.registry.contains sid = true := by
  unfold sessionsGet at h
  by_cases hc : st.registry.contains sid = true
  · rw [if_pos hc] at h
    exact ⟨h, hc⟩
  · rw [if_neg hc] at h
    exact absurd h (by simp)

end Web

namespace SF

theorem foldl_applyCallback (cbs : List SFCallback) : ∀ p : PendingRun,
    cbs.foldl applyCallback p =
      ⟨p.results ++ itemsOfCallbacks cbs,
       p.loadingStates ++ loadingOfCallbacks cbs,
       lastIdFrom p.lastResponseId? cbs⟩ := by
  induction cbs with
  | nil =>
      intro p
      simp [itemsOfCallbacks, loadingOfCallbacks, lastIdFrom]
  | cons cb t ih =>
      intro p
      cases cb with
      | onItem it =>
          simp [applyCallback, itemsOfCallbacks, loadingOfCallbacks, lastIdFrom,
            List.filterMap_cons, ih]
      | onLoading b =>
          simp [applyCallback, itemsOfCallbacks, loadingOfCallbacks, lastIdFrom,
            List.filterMap_cons, ih]
      | onLastResponseId i =>
          simp [applyCallback, itemsOfCallbacks, loadingOfCallbacks, lastIdFrom,
            List.filterMap_cons, ih]

theorem handleRunSF_admitted (b : Option SFBody) (r : SFRun) (d : Nat) (sb : String)
    (s : SFState) (hs : s.activeRun = false) (hp : sfPromptOf b ≠ "") :
    handleRunSF b r d sb s
      = sfResolve ⟨[], [], none⟩ r d sb (fullStdoutOf b)
          { s with activeRun := true, execCount := s.execCount + 1 } := by
  simp [handleRunSF, sfStart, hs, hp]

theorem handleRunSF_clears_activeRun (b : Option SFBody) (r : SFRun) (d : Nat)
    (sb : String) (s : SFState) (hs : s.activeRun = false) :
    ((handleRunSF b r d sb s).2).activeRun = false := by
  by_cases hp : sfPromptOf b = ""
  · simp [handleRunSF, sfStart, hs, hp]
  · cases ho : r.outcome with
    | none => simp [handleRunSF, sfStart, hs, hp, sfResolve, ho]
    | some e => simp [handleRunSF, sfStart, hs, hp, sfResolve, ho]

end SF

namespace Web

theorem heapGet_broadcast (e : SessionEvent) (l : List Nat) (st : ServerState) (sid : Nat) :
    heapGet (broadcast e l st) sid = heapGet st sid := by
  unfold heapGet
  rw [broadcast_heap]

theorem heapGet_replayTo (c : Nat) (evs : List SessionEvent) (st : ServerState) (sid : Nat) :
    heapGet (replayTo c evs st) sid = heapGet st sid := by
  unfold heapGet
  rw [replayTo_heap]

theorem heapGet_cleanup (sid2 sid : Nat) (st : ServerState) :
    heapGet (cleanupSessionIfIdle sid2 st) sid = heapGet st sid := by
  unfold heapGet
  rw [cleanup_heap]

theorem emit_session (sid : Nat) (e : SessionEvent) (st : ServerState) (s : Session)
    (hg : heapGet st sid = some s) :
    heapGet (emit sid e st) sid = some { s with events := s.events ++ [e] } ∧
    (emit sid e st).registry = st.registry := by
  have he : emit sid e st
      = broadcast e s.listeners (heapSet sid { s with events := s.events ++ [e] } st) := by
    simp [emit, hg]
  constructor
  · rw [he, heapGet_broadcast, heapGet_heapSet_self]
  · rw [he, broadcast_registry, heapSet_registry]

theorem emit_registry (sid : Nat) (e : SessionEvent) (st : ServerState) :
    (emit sid e st).registry = st.registry := by
  cases hg : heapGet st sid with
  | none => simp [emit, hg]
  | some s => exact (emit_session sid e st s hg).2

theorem emitAll_session (sid : Nat) (cbs : List AgentCallback) :
    ∀ (st : ServerState) (s : Session), heapGet st sid = some s →
      heapGet (cbs.foldl (fun acc cb => emit sid (callbackEvent cb) acc) st) sid
        = some { s with events := s.events ++ cbs.map callbackEvent } ∧
      (cbs.foldl (fun acc cb => emit sid (callbackEvent cb) acc) st).registry
        = st.registry := by
  induction cbs with
  | nil =>
      intro st s hg
      refine ⟨?_, rfl⟩
      rw [List.foldl_nil, hg]
      simp
  | cons cb t ih =>
      intro st s hg
      obtain ⟨hg1, hr1⟩ := emit_session sid (callbackEvent cb) st s hg
      obtain ⟨hg2, hr2⟩ := ih (emit sid (callbackEvent cb) st) _ hg1
      constructor
      · rw [List.foldl_cons, hg2]
        simp
      · rw [List.foldl_cons]
        exact hr2.trans hr1

theorem setCompleted_session (sid : Nat) (st : ServerState) (s : Session)
    (hg : heapGet st sid = some s) :
    heapGet (setCompleted sid st) sid = some { s with completed := true } ∧
    (setCompleted sid st).registry = st.registry := by
  constructor
  · simp [setCompleted, hg, heapGet_heapSet_self]
  · simp [setCompleted, hg, heapSet_registry]

theorem setCompleted_registry (sid : Nat) (st : ServerState) :
    (setCompleted sid st).registry = st.registry := by
  cases hg : heapGet st sid with
  | none => simp [setCompleted, hg]
  | some s => exact (setCompleted_session sid st s hg).2

theorem cleanup_removes (sid : Nat) (st : ServerState) (s : Session)
    (hg : heapGet st sid = some s) (hc : s.completed = true) (hl : s.listeners = []) :
    sid ∉ (cleanupSessionIfIdle sid st).registry := by
  have hcond : (s.completed && s.listeners.isEmpty) = true := by
    simp [hc, hl]
  simp [cleanupSessionIfIdle, hg, hcond, sessionsDelete]

theorem callbackEvent_not_error (cb : AgentCallback) :
    ((callbackEvent cb).type == "error") = false ∧
    ((callbackEvent cb).type == "complete") = false := by
  cases cb <;> exact ⟨rfl, rfl⟩

end Web

open Web SF

/-- C8: reclaim and detach are idempotent.  Running the reclaim check a
second time changes nothing (in particular, when the session was already
removed the registry mapping is unchanged), and running the detach handler a
second time for the same connection — whose handle is by then already absent
from the observer set — changes neither the session nor the registry. -/
theorem reclaim_detach_idempotent (sid c : Nat) (st : ServerState) :
    cleanupSessionIfIdle sid (cleanupSessionIfIdle sid st) = cleanupSessionIfIdle sid st ∧
    handleClose sid c (handleClose sid c st) = handleClose sid c st :=
  ⟨cleanup_idem sid st, handleClose_idem sid c st⟩

/-- C7: attaching to a session identifier that is not in the registry (never
created or already reclaimed) answers 404 and leaves the state untouched: no
observer is registered, nothing is written to the connection, and no silently
empty stream is opened. -/
theorem attach_unknown_not_found (st : ServerState) (sid c : Nat)
    (h : sessionsGet st sid = none) :
    handleStream sid c st = (404, st) := by
  simp [handleStream, h]

/-- Witness for C7 at a concrete state: attaching to identifier 7 of the
initial (empty) registry. -/
theorem attach_unknown_not_found_witness :
    sessionsGet initState 7 = none ∧ handleStream 7 3 initState = (404, initState) :=
  ⟨rfl, attach_unknown_not_found initState 7 3 rfl⟩

/-- C6: a start request whose instruction is missing, not a string, or empty
after trimming is rejected with the validation error before any session is
created — the registry, the identifier counter and the executor-invocation
count are unchanged (the whole state is unchanged).  Both servers validate
this way; in the single-flight server the check runs when no run is
outstanding. -/
theorem validation_rejects_before_session
    (body? : Option ReqBody) (run : AgentRun) (st : ServerState)
    (h : promptOf body? = "")
    (sfBody? : Option SFBody) (sfRun : SFRun) (dur : Nat) (sb : String)
    (sfSt : SFState) (hsf : sfPromptOf sfBody? = "") (hact : sfSt.activeRun = false) :
    handleRun body? run st = (.badRequest "Prompt is required", st) ∧
    handleRunSF sfBody? sfRun dur sb sfSt = (promptRequiredResp, sfSt) := by
  constructor
  · simp [handleRun, h]
  · simp [handleRunSF, sfStart, hact, hsf]

/-- Witness for C6: a whitespace-only prompt on the multi-session server and
a missing body on the single-flight server. -/
theorem validation_rejects_before_session_witness :
    promptOf (some ⟨some (JsVal.jstr "   ")⟩) = "" ∧
    handleRun (some ⟨some (JsVal.jstr "   ")⟩) ⟨[], none⟩ initState
      = (.badRequest "Prompt is required", initState) ∧
    handleRunSF none ⟨[], none⟩ 0 "available" ⟨false, 0⟩
      = (promptRequiredResp, (⟨false, 0⟩ : SFState)) :=
  ⟨rfl,
   (validation_rejects_before_session (some ⟨some (JsVal.jstr "   ")⟩) ⟨[], none⟩
      initState rfl none ⟨[], none⟩ 0 "available" ⟨false, 0⟩ rfl rfl).1,
   (validation_rejects_before_session (some ⟨some (JsVal.jstr "   ")⟩) ⟨[], none⟩
      initState rfl none ⟨[], none⟩ 0 "available" ⟨false, 0⟩ rfl rfl).2⟩

/-- C3: single-flight admission.  While a run is outstanding every start
request gets the 409 conflict response and the state — in particular the
executor-invocation count — is unchanged; when no run is outstanding the
response is never the conflict and the handler leaves `activeRun` cleared, so
a start request arriving after the outstanding run resolved (success or
failure) is again never rejected with the conflict. -/
theorem single_flight_admission
    (st : SFState) (body? : Option SFBody) (run : SFRun) (dur : Nat) (sb : String) :
    (st.activeRun = true →
      handleRunSF body? run dur sb st = (conflictResp, st)) ∧
    (st.activeRun = false →
      (handleRunSF body? run dur sb st).1.status ≠ 409 ∧
      ((handleRunSF body? run dur sb st).2).activeRun = false) ∧
    (∀ (body2 : Option SFBody) (run2 : SFRun) (dur2 : Nat),
      st.activeRun = false →
      ((handleRunSF body2 run2 dur2 sb ((handleRunSF body? run dur sb st).2)).1).status ≠ 409) := by
  have key : ∀ (b : Option SFBody) (r : SFRun) (d : Nat) (s : SFState),
      s.activeRun = false →
      (handleRunSF b r d sb s).1.status ≠ 409 ∧
      ((handleRunSF b r d sb s).2).activeRun = false := by
    intro b r d s hs
    by_cases hp : sfPromptOf b = ""
    · simp [handleRunSF, sfStart, hs, hp, promptRequiredResp]
    · cases ho : r.outcome with
      | none => simp [handleRunSF, sfStart, hs, hp, sfResolve, ho]
      | some e => simp [handleRunSF, sfStart, hs, hp, sfResolve, ho]
  refine ⟨fun h => ?_, fun h => key body? run dur st h, fun b2 r2 d2 h => ?_⟩
  · simp [handleRunSF, sfStart, h]
  · exact (key b2 r2 d2 _ (key body? run dur st h).2).1

/-- Witness for C3: a conflict at an outstanding-run state, and two
consecutive admitted requests from the idle state. -/
theorem single_flight_admission_witness :
    handleRunSF (some ⟨some (JsVal.jstr "build project"), false⟩) ⟨[], none⟩ 1 "available"
        ⟨true, 1⟩ = (conflictResp, (⟨true, 1⟩ : SFState)) ∧
    (handleRunSF (some ⟨some (JsVal.jstr "build project"), false⟩) ⟨[], none⟩ 1 "available"
        ⟨false, 0⟩).1.status ≠ 409 ∧
    ((handleRunSF (some ⟨some (JsVal.jstr "x"), false⟩) ⟨[], some (.errorObj "disk full")⟩ 2
        "available"
        ((handleRunSF (some ⟨some (JsVal.jstr "build project"), false⟩) ⟨[], none⟩ 1 "available"
          ⟨false, 0⟩).2)).1).status ≠ 409 :=
  ⟨(single_flight_admission ⟨true, 1⟩ (some ⟨some (JsVal.jstr "build project"), false⟩)
      ⟨[], none⟩ 1 "available").1 rfl,
   ((single_flight_admission ⟨false, 0⟩ (some ⟨some (JsVal.jstr "build project"), false⟩)
      ⟨[], none⟩ 1 "available").2.1 rfl).1,
   (single_flight_admission ⟨false, 0⟩ (some ⟨some (JsVal.jstr "build project"), false⟩)
      ⟨[], none⟩ 1 "available").2.2 (some ⟨some (JsVal.jstr "x"), false⟩)
      ⟨[], some (.errorObj "disk full")⟩ 2 rfl⟩

/-- C10: replay and live delivery frame events through the same function
(`writeEvent`): a live emission appends exactly one frame to each attached
observer, replay on attach appends exactly the frame of every logged event,
and the frame of an event is the event line, a data line only when the event
carries data, then a blank line — so an event replayed on attach produces the
same bytes as the same event delivered live. -/
theorem replay_live_identical_frames
    (st : ServerState) (sid c : Nat) (s : Session) (e : SessionEvent)
    (hs : sessionsGet st sid = some s) (hc : s.listeners.count c = 1) :
    connBuf (emit sid e st) c = connBuf st c ++ writeEventChunks e ∧
    (∀ c2 : Nat, connBuf ((handleStream sid c2 st).2) c2
        = connBuf st c2 ++ (s.events.map writeEventChunks).flatten) ∧
    writeEventChunks e
      = ["event: " ++ e.type ++ "\n"]
          ++ (match e.data? with
              | some d => ["data: " ++ stringifyData d ++ "\n"]
              | none => [])
          ++ ["\n"] := by
  obtain ⟨hg, -⟩ := sessionsGet_some hs
  refine ⟨?_, ?_, rfl⟩
  · have he : emit sid e st
        = broadcast e s.listeners (heapSet sid { s with events := s.events ++ [e] } st) := by
      simp [emit, hg]
    rw [he, connBuf_broadcast_count_one _ _ _ _ hc, connBuf_heapSet]
  · intro c2
    have hh : (handleStream sid c2 st).2
        = replayTo c2 s.events (heapSet sid { s with listeners := setAdd s.listeners c2 } st) := by
      simp [handleStream, hs]
    rw [hh, connBuf_replayTo_self, connBuf_heapSet]

/-- Witness for C10: a session with one listener, one live emission. -/
theorem replay_live_identical_frames_witness :
    sessionsGet ((handleStream 0 9 ((createSession initState).2)).2) 0
        = some ⟨0, [], [9], false⟩ ∧
    connBuf (emit 0 ⟨"item", some (.textData "hi")⟩
        ((handleStream 0 9 ((createSession initState).2)).2)) 9
      = connBuf ((handleStream 0 9 ((createSession initState).2)).2) 9
          ++ writeEventChunks ⟨"item", some (.textData "hi")⟩ :=
  ⟨by decide,
   (replay_live_identical_frames ((handleStream 0 9 ((createSession initState).2)).2) 0 9
      ⟨0, [], [9], false⟩ ⟨"item", some (.textData "hi")⟩ (by decide) (by decide)).1⟩

/-- Counterexample to C4 as stated: a concrete admitted run whose executor
rejects with message `disk full` after one loading transition.  The claim
says the failure body has the same shape as the success body — items,
loading transitions, last response id, duration — plus an error message; in
fact the 500 body of the code carries no `loading` and no `lastResponseId`
field even though a loading transition occurred. -/
theorem error_response_missing_fields :
    ((handleRunSF (some ⟨some (JsVal.jstr "build it"), false⟩)
        ⟨[.onLoading true], some (.errorObj "disk full")⟩ 7 "available" ⟨false, 0⟩).1).status
      = 500 ∧
    sfLoadingOf ⟨[.onLoading true], some (.errorObj "disk full")⟩ ≠ [] ∧
    getAssoc ((handleRunSF (some ⟨some (JsVal.jstr "build it"), false⟩)
        ⟨[.onLoading true], some (.errorObj "disk full")⟩ 7 "available" ⟨false, 0⟩).1).body
        "loading" = none ∧
    getAssoc ((handleRunSF (some ⟨some (JsVal.jstr "build it"), false⟩)
        ⟨[.onLoading true], some (.errorObj "disk full")⟩ 7 "available" ⟨false, 0⟩).1).body
        "lastResponseId" = none := by
  refine ⟨rfl, by decide, rfl, rfl⟩

/-- C4(amended): for every admitted run, on success the 200 body contains the
buffered items, the loading transitions, a duration, and the last response id
exactly when one was reported; on failure the 500 body contains the error
message, the buffered items and a duration, but — unlike the success shape —
no loading transitions and no last response id. -/
theorem run_response_shape
    (st : SFState) (body? : Option SFBody) (run : SFRun) (dur : Nat) (sb : String)
    (hact : st.activeRun = false) (hp : sfPromptOf body? ≠ "") :
    (run.outcome = none →
      ((handleRunSF body? run dur sb st).1).status = 200 ∧
      getAssoc ((handleRunSF body? run dur sb st).1).body "items"
        = some (.jitems (sfItemsOf run)) ∧
      getAssoc ((handleRunSF body? run dur sb st).1).body "loading"
        = some (.jloading (sfLoadingOf run)) ∧
      getAssoc ((handleRunSF body? run dur sb st).1).body "durationMs"
        = some (.jnum dur) ∧
      getAssoc ((handleRunSF body? run dur sb st).1).body "lastResponseId"
        = (sfLastIdOf run).map JVal.jstr) ∧
    (∀ e, run.outcome = some e →
      ((handleRunSF body? run dur sb st).1).status = 500 ∧
      getAssoc ((handleRunSF body? run dur sb st).1).body "error"
        = some (.jstr (sfErrorMessage e)) ∧
      getAssoc ((handleRunSF body? run dur sb st).1).body "items"
        = some (.jitems (sfItemsOf run)) ∧
      getAssoc ((handleRunSF body? run dur sb st).1).body "durationMs"
        = some (.jnum dur) ∧
      getAssoc ((handleRunSF body? run dur sb st).1).body "loading" = none ∧
      getAssoc ((handleRunSF body? run dur sb st).1).body "lastResponseId" = none) := by
  have hh : handleRunSF body? run dur sb st
      = sfResolve ⟨[], [], none⟩ run dur sb (fullStdoutOf body?)
          { st with activeRun := true, execCount := st.execCount + 1 } :=
    handleRunSF_admitted body? run dur sb st hact hp
  have hfold : run.callbacks.foldl applyCallback ⟨[], [], none⟩
      = ⟨itemsOfCallbacks run.callbacks, loadingOfCallbacks run.callbacks,
         lastIdFrom none run.callbacks⟩ := by
    simpa using foldl_applyCallback run.callbacks ⟨[], [], none⟩
  constructor
  · intro ho
    cases hlast : lastIdFrom none run.callbacks with
    | none =>
        refine ⟨?_, ?_, ?_, ?_, ?_⟩ <;>
          simp [hh, sfResolve, ho, hfold, hlast, successBody, getAssoc,
            sfItemsOf, sfLoadingOf, sfLastIdOf]
    | some i =>
        refine ⟨?_, ?_, ?_, ?_, ?_⟩ <;>
          simp [hh, sfResolve, ho, hfold, hlast, successBody, getAssoc,
            sfItemsOf, sfLoadingOf, sfLastIdOf]
  · intro e ho
    refine ⟨?_, ?_, ?_, ?_, ?_, ?_⟩ <;>
      simp [hh, sfResolve, ho, hfold, errorBody, getAssoc, sfItemsOf]

/-- Witness for C4(amended): one successful run reporting a last response id
and one failing run. -/
theorem run_response_shape_witness :
    getAssoc ((handleRunSF (some ⟨some (JsVal.jstr "go"), true⟩)
        ⟨[.onItem "x", .onLastResponseId "r1"], none⟩ 5 "available" ⟨false, 0⟩).1).body
        "lastResponseId"
      = (sfLastIdOf ⟨[.onItem "x", .onLastResponseId "r1"], none⟩).map JVal.jstr ∧
    getAssoc ((handleRunSF (some ⟨some (JsVal.jstr "go"), true⟩)
        ⟨[.onItem "x"], some (.nonError "boom")⟩ 5 "available" ⟨false, 0⟩).1).body
        "loading" = none :=
  ⟨(((run_response_shape ⟨false, 0⟩ (some ⟨some (JsVal.jstr "go"), true⟩)
      ⟨[.onItem "x", .onLastResponseId "r1"], none⟩ 5 "available" rfl (by decide)).1)
      rfl).2.2.2.2,
   ((run_response_shape ⟨false, 0⟩ (some ⟨some (JsVal.jstr "go"), true⟩)
      ⟨[.onItem "x"], some (.nonError "boom")⟩ 5 "available" rfl (by decide)).2
      (.nonError "boom") rfl).2.2.2.2.1⟩

/-- C9: the item and loading-state buffers are freshly allocated per admitted
request, so after any earlier run, a second admitted run's response carries
exactly the items produced by its own executor invocation in callback order
(and, on success, exactly its own loading transitions) — never anything from
the earlier run. -/
theorem sequential_runs_fresh_buffers
    (st : SFState) (b1 b2 : Option SFBody) (r1 r2 : SFRun) (d1 d2 : Nat) (sb : String)
    (hact : st.activeRun = false) (hp2 : sfPromptOf b2 ≠ "") :
    getAssoc ((handleRunSF b2 r2 d2 sb ((handleRunSF b1 r1 d1 sb st).2)).1).body "items"
      = some (.jitems (sfItemsOf r2)) ∧
    (r2.outcome = none →
      getAssoc ((handleRunSF b2 r2 d2 sb ((handleRunSF b1 r1 d1 sb st).2)).1).body "loading"
        = some (.jloading (sfLoadingOf r2))) := by
  have h1 : ((handleRunSF b1 r1 d1 sb st).2).activeRun = false :=
    handleRunSF_clears_activeRun b1 r1 d1 sb st hact
  have hh : handleRunSF b2 r2 d2 sb ((handleRunSF b1 r1 d1 sb st).2)
      = sfResolve ⟨[], [], none⟩ r2 d2 sb (fullStdoutOf b2)
          { (handleRunSF b1 r1 d1 sb st).2 with
              activeRun := true,
              execCount := ((handleRunSF b1 r1 d1 sb st).2).execCount + 1 } :=
    handleRunSF_admitted b2 r2 d2 sb _ h1 hp2
  have hfold : r2.callbacks.foldl applyCallback ⟨[], [], none⟩
      = ⟨itemsOfCallbacks r2.callbacks, loadingOfCallbacks r2.callbacks,
         lastIdFrom none r2.callbacks⟩ := by
    simpa using foldl_applyCallback r2.callbacks ⟨[], [], none⟩
  constructor
  · cases ho : r2.outcome with
    | none =>
        cases hlast : lastIdFrom none r2.callbacks with
        | none =>
            simp [hh, sfResolve, ho, hfold, hlast, successBody, getAssoc, sfItemsOf]
        | some i =>
            simp [hh, sfResolve, ho, hfold, hlast, successBody, getAssoc, sfItemsOf]
    | some e =>
        simp [hh, sfResolve, ho, hfold, errorBody, getAssoc, sfItemsOf]
  · intro ho
    cases hlast : lastIdFrom none r2.callbacks with
    | none =>
        simp [hh, sfResolve, ho, hfold, hlast, successBody, getAssoc, sfLoadingOf]
    | some i =>
        simp [hh, sfResolve, ho, hfold, hlast, successBody, getAssoc, sfLoadingOf]

/-- Witness for C9: a first failing run followed by a second successful run;
the second response carries only the second run's output. -/
theorem sequential_runs_fresh_buffers_witness :
    getAssoc ((handleRunSF (some ⟨some (JsVal.jstr "b"), false⟩)
        ⟨[.onItem "own"], none⟩ 2 "available"
        ((handleRunSF (some ⟨some (JsVal.jstr "a"), false⟩)
          ⟨[.onItem "stale"], some (.errorObj "disk full")⟩ 1 "available"
          ⟨false, 0⟩).2)).1).body "items"
      = some (.jitems (sfItemsOf ⟨[.onItem "own"], none⟩)) :=
  (sequential_runs_fresh_buffers ⟨false, 0⟩ (some ⟨some (JsVal.jstr "a"), false⟩)
    (some ⟨some (JsVal.jstr "b"), false⟩) ⟨[.onItem "stale"], some (.errorObj "disk full")⟩
    ⟨[.onItem "own"], none⟩ 1 2 "available" rfl (by decide)).1

/-- C5: when the executor rejects with an `Error` carrying a message, the
orchestrator appends to the session exactly one `error` event carrying that
message and no `complete` event (after the events of the callbacks that fired
before the failure), marks the session completed, and removes the session
from the registry when its observer set is empty. -/
theorem executor_failure_terminal
    (st : ServerState) (sid : Nat) (s : Session) (prompt msg : String)
    (cbs : List AgentCallback) (hg : heapGet st sid = some s) :
    ∃ s2, heapGet (runAgentForSession sid prompt ⟨cbs, some (.errorObj msg)⟩ st) sid
        = some s2 ∧
      s2.events = s.events ++ cbs.map callbackEvent
        ++ [(⟨"error", some (.messageData msg)⟩ : SessionEvent)] ∧
      (cbs.map callbackEvent ++ [(⟨"error", some (.messageData msg)⟩ : SessionEvent)]).countP
          (fun ev => ev.type == "error") = 1 ∧
      (cbs.map callbackEvent ++ [(⟨"error", some (.messageData msg)⟩ : SessionEvent)]).countP
          (fun ev => ev.type == "complete") = 0 ∧
      s2.completed = true ∧
      s2.listeners = s.listeners ∧
      (s.listeners = [] →
        sid ∉ (runAgentForSession sid prompt ⟨cbs, some (.errorObj msg)⟩ st).registry) := by
  have hrun : runAgentForSession sid prompt ⟨cbs, some (.errorObj msg)⟩ st
      = cleanupSessionIfIdle sid (setCompleted sid
          (emit sid ⟨"error", some (.messageData msg)⟩
            (cbs.foldl (fun acc cb => emit sid (callbackEvent cb) acc)
              { st with execCount := st.execCount + 1 }))) := rfl
  have hg0 : heapGet { st with execCount := st.execCount + 1 } sid = some s := hg
  obtain ⟨hg1, -⟩ :=
    emitAll_session sid cbs { st with execCount := st.execCount + 1 } s hg0
  obtain ⟨hg2, -⟩ := emit_session sid ⟨"error", some (.messageData msg)⟩ _ _ hg1
  obtain ⟨hg3, -⟩ := setCompleted_session sid _ _ hg2
  have hcount1 : (cbs.map callbackEvent ++ [(⟨"error", some (.messageData msg)⟩ : SessionEvent)]).countP
      (fun ev => ev.type == "error") = 1 := by
    rw [List.countP_append]
    have hz : (cbs.map callbackEvent).countP (fun ev => ev.type == "error") = 0 := by
      rw [List.countP_eq_zero]
      intro a ha
      obtain ⟨cb, -, hcb⟩ := List.mem_map.mp ha
      rw [← hcb]
      simp [(callbackEvent_not_error cb).1]
    rw [hz]
    rfl
  have hcount0 : (cbs.map callbackEvent ++ [(⟨"error", some (.messageData msg)⟩ : SessionEvent)]).countP
      (fun ev => ev.type == "complete") = 0 := by
    rw [List.countP_append]
    have hz : (cbs.map callbackEvent).countP (fun ev => ev.type == "complete") = 0 := by
      rw [List.countP_eq_zero]
      intro a ha
      obtain ⟨cb, -, hcb⟩ := List.mem_map.mp ha
      rw [← hcb]
      simp [(callbackEvent_not_error cb).2]
    rw [hz]
    rfl
  refine ⟨⟨s.id, (s.events ++ cbs.map callbackEvent)
      ++ [(⟨"error", some (.messageData msg)⟩ : SessionEvent)], s.listeners, true⟩,
    ?_, rfl, hcount1, hcount0, rfl, rfl, ?_⟩
  · rw [hrun, heapGet_cleanup]
    exact hg3
  · intro hl
    rw [hrun]
    exact cleanup_removes sid _ _ hg3 rfl hl

/-- Witness for C5: a fresh session whose executor produces one item and then
rejects with message `disk full`. -/
theorem executor_failure_terminal_witness :
    heapGet ((createSession initState).2) 0 = some ⟨0, [], [], false⟩ ∧
    (∃ s2, heapGet (runAgentForSession 0 "p"
          ⟨[AgentCallback.onItem "a"], some (.errorObj "disk full")⟩
          ((createSession initState).2)) 0 = some s2 ∧
      s2.events = (⟨0, [], [], false⟩ : Session).events
        ++ [AgentCallback.onItem "a"].map callbackEvent
        ++ [(⟨"error", some (.messageData "disk full")⟩ : SessionEvent)] ∧
      ([AgentCallback.onItem "a"].map callbackEvent
        ++ [(⟨"error", some (.messageData "disk full")⟩ : SessionEvent)]).countP
          (fun ev => ev.type == "error") = 1 ∧
      ([AgentCallback.onItem "a"].map callbackEvent
        ++ [(⟨"error", some (.messageData "disk full")⟩ : SessionEvent)]).countP
          (fun ev => ev.type == "complete") = 0 ∧
      s2.completed = true ∧
      s2.listeners = (⟨0, [], [], false⟩ : Session).listeners ∧
      ((⟨0, [], [], false⟩ : Session).listeners = [] →
        0 ∉ (runAgentForSession 0 "p"
          ⟨[AgentCallback.onItem "a"], some (.errorObj "disk full")⟩
          ((createSession initState).2)).registry)) :=
  ⟨by decide,
   executor_failure_terminal ((createSession initState).2) 0 ⟨0, [], [], false⟩ "p"
     "disk full" [AgentCallback.onItem "a"] (by decide)⟩

namespace Web

theorem count_setAdd_ne (l : List Nat) (c2 c : Nat) (h : c2 ≠ c) :
    (setAdd l c2).count c = l.count c := by
  unfold setAdd
  by_cases hc : c2 ∈ l
  · simp [hc]
  · simp [hc, List.count_append, List.count_singleton', h]

theorem count_setDelete_ne (l : List Nat) (c2 c : Nat) (h : c2 ≠ c) :
    (setDelete l c2).count c = l.count c := by
  unfold setDelete
  exact List.count_filter (by simp [Ne.symm h])

theorem count_append_one (l : List Nat) (c : Nat) (h : c ∉ l) :
    (l ++ [c]).count c = 1 := by
  simp [List.count_append, List.count_eq_zero.mpr h]

theorem connBuf_cleanup (sid : Nat) (st : ServerState) (c : Nat) :
    connBuf (cleanupSessionIfIdle sid st) c = connBuf st c := by
  unfold connBuf
  rw [cleanup_conns]

theorem runOps_connBuf (sid c : Nat) (ops : List Op) :
    ∀ (st : ServerState) (s : Session),
      heapGet st sid = some s → s.listeners.count c = 1 → avoids c ops = true →
      connBuf (runOps sid ops st) c
        = connBuf st c ++ ((emitsOf ops).map writeEventChunks).flatten := by
  induction ops with
  | nil =>
      intro st s hg hc hav
      simp [runOps, emitsOf]
  | cons op t ih =>
      intro st s hg hc hav
      have hstep : runOps sid (op :: t) st = runOps sid t (step sid st op) := rfl
      rw [hstep]
      cases op with
      | emitEv e =>
          have hav2 : avoids c t = true := by
            simp only [avoids, List.all_cons, Bool.and_eq_true] at hav
            exact hav.2
          have he : step sid st (.emitEv e)
              = broadcast e s.listeners (heapSet sid { s with events := s.events ++ [e] } st) := by
            simp [step, emit, hg]
          have hg2 : heapGet (step sid st (.emitEv e)) sid
              = some { s with events := s.events ++ [e] } := by
            rw [he, heapGet_broadcast, heapGet_heapSet_self]
          have hb2 : connBuf (step sid st (.emitEv e)) c
              = connBuf st c ++ writeEventChunks e := by
            rw [he, connBuf_broadcast_count_one _ _ _ _ hc, connBuf_heapSet]
          rw [ih _ _ hg2 hc hav2, hb2]
          simp [emitsOf, List.filterMap_cons, List.append_assoc]
      | attach c2 =>
          have hne : c2 ≠ c := by
            simp only [avoids, List.all_cons, Bool.and_eq_true] at hav
            simpa using hav.1
          have hav2 : avoids c t = true := by
            simp only [avoids, List.all_cons, Bool.and_eq_true] at hav
            exact hav.2
          cases hsg : sessionsGet st sid with
          | none =>
              have he : step sid st (.attach c2) = st := by
                simp [step, handleStream, hsg]
              rw [he, ih _ _ hg hc hav2]
              simp [emitsOf, List.filterMap_cons]
          | some s0 =>
              have hs0 : s0 = s := by
                have h1 := (sessionsGet_some hsg).1
                rw [hg] at h1
                exact (Option.some_inj.mp h1).symm
              subst hs0
              have he : step sid st (.attach c2)
                  = replayTo c2 s0.events
                      (heapSet sid { s0 with listeners := setAdd s0.listeners c2 } st) := by
                simp [step, handleStream, hsg]
              have hg2 : heapGet (step sid st (.attach c2)) sid
                  = some { s0 with listeners := setAdd s0.listeners c2 } := by
                rw [he, heapGet_replayTo, heapGet_heapSet_self]
              have hc2 : (setAdd s0.listeners c2).count c = 1 := by
                rw [count_setAdd_ne _ _ _ hne]
                exact hc
              have hb2 : connBuf (step sid st (.attach c2)) c = connBuf st c := by
                rw [he, connBuf_replayTo_ne c2 c _ _ (Ne.symm hne), connBuf_heapSet]
              rw [ih _ _ hg2 hc2 hav2, hb2]
              simp [emitsOf, List.filterMap_cons]
      | close c2 =>
          have hne : c2 ≠ c := by
            simp only [avoids, List.all_cons, Bool.and_eq_true] at hav
            simpa using hav.1
          have hav2 : avoids c t = true := by
            simp only [avoids, List.all_cons, Bool.and_eq_true] at hav
            exact hav.2
          have he : step sid st (.close c2)
              = cleanupSessionIfIdle sid
                  (heapSet sid { s with listeners := setDelete s.listeners c2 } st) := by
            simp [step, handleClose, hg]
          have hg2 : heapGet (step sid st (.close c2)) sid
              = some { s with listeners := setDelete s.listeners c2 } := by
            rw [he, heapGet_cleanup, heapGet_heapSet_self]
          have hc2 : (setDelete s.listeners c2).count c = 1 := by
            rw [count_setDelete_ne _ _ _ hne]
            exact hc
          have hb2 : connBuf (step sid st (.close c2)) c = connBuf st c := by
            rw [he, connBuf_cleanup, connBuf_heapSet]
          rw [ih _ _ hg2 hc2 hav2, hb2]
          simp [emitsOf, List.filterMap_cons]

end Web

/-- C1: an observer attaching at any point of a session's lifetime — before
the first emission, mid-stream, or after completion, as long as the session
still resolves — receives exactly the frames of the events in the log at
attach time, in log order, followed by exactly the frames of the events
emitted after it attached, in emission order, whatever other emissions,
attachments, detachments and reclaim checks are interleaved: no event is
skipped and none is delivered twice. -/
theorem observer_no_gaps_no_duplicates
    (st : ServerState) (sid c : Nat) (s : Session) (ops : List Op)
    (hs : sessionsGet st sid = some s)
    (hfresh : s.listeners.count c = 0)
    (hbuf : connBuf st c = [])
    (hops : avoids c ops = true) :
    connBuf (runOps sid ops ((handleStream sid c st).2)) c
      = ((s.events ++ emitsOf ops).map writeEventChunks).flatten := by
  obtain ⟨hg, -⟩ := sessionsGet_some hs
  have hh : (handleStream sid c st).2
      = replayTo c s.events (heapSet sid { s with listeners := setAdd s.listeners c } st) := by
    simp [handleStream, hs]
  have hg2 : heapGet ((handleStream sid c st).2) sid
      = some { s with listeners := setAdd s.listeners c } := by
    rw [hh, heapGet_replayTo, heapGet_heapSet_self]
  have hnotmem : c ∉ s.listeners := List.count_eq_zero.mp hfresh
  have hcount : (setAdd s.listeners c).count c = 1 := by
    have hcon : ¬ s.listeners.contains c = true := by
      simpa using hnotmem
    rw [setAdd, if_neg hcon]
    exact count_append_one _ _ hnotmem
  have hbuf2 : connBuf ((handleStream sid c st).2) c
      = (s.events.map writeEventChunks).flatten := by
    rw [hh, connBuf_replayTo_self, connBuf_heapSet, hbuf]
    simp
  rw [runOps_connBuf sid c ops _ _ hg2 hcount hops, hbuf2]
  simp [List.map_append, List.flatten_append]

/-- Witness for C1: a session with one logged event; a fresh observer
attaches and one further event is emitted. -/
theorem observer_no_gaps_no_duplicates_witness :
    sessionsGet (emit 0 ⟨"item", some (.textData "a")⟩ ((createSession initState).2)) 0
      = some ⟨0, [⟨"item", some (.textData "a")⟩], [], false⟩ ∧
    connBuf (runOps 0 [Op.emitEv ⟨"complete", none⟩]
        ((handleStream 0 5
          (emit 0 ⟨"item", some (.textData "a")⟩ ((createSession initState).2))).2)) 5
      = ((([(⟨"item", some (.textData "a")⟩ : SessionEvent)]
          ++ emitsOf [Op.emitEv ⟨"complete", none⟩]).map writeEventChunks).flatten) :=
  ⟨by decide,
   observer_no_gaps_no_duplicates
     (emit 0 ⟨"item", some (.textData "a")⟩ ((createSession initState).2)) 0 5
     ⟨0, [⟨"item", some (.textData "a")⟩], [], false⟩ [Op.emitEv ⟨"complete", none⟩]
     (by decide) (by decide) (by decide) (by decide)⟩

namespace Web

theorem destroyCond_iff (s : Session) :
    (s.completed && s.listeners.isEmpty) = true ↔
      (s.completed = true ∧ s.listeners = []) := by
  simp [List.isEmpty_iff]

theorem invReg_of_eq (st st2 : ServerState) (h : InvReg st) (hh : st2.heap = st.heap)
    (hr : st2.registry = st.registry) (hn : st2.nextId = st.nextId) : InvReg st2 := by
  obtain ⟨hb, hreg⟩ := h
  constructor
  · intro k s hk
    rw [hh] at hk
    rw [hn]
    exact hb k s hk
  · intro sid hsid
    rw [hr] at hsid
    obtain ⟨s, hs, hc⟩ := hreg sid hsid
    refine ⟨s, ?_, hc⟩
    unfold heapGet at hs ⊢
    rw [hh]
    exact hs

theorem invReg_parts_heapSet (st : ServerState) (sid : Nat) (s s2 : Session)
    (h : InvReg st) (hg : heapGet st sid = some s) :
    (∀ k sx, getAssoc (heapSet sid s2 st).heap k = some sx →
      k < (heapSet sid s2 st).nextId) ∧
    (∀ sid2, sid2 ∈ (heapSet sid s2 st).registry → sid2 ≠ sid →
      ∃ sx, heapGet (heapSet sid s2 st) sid2 = some sx ∧
        ¬(sx.completed = true ∧ sx.listeners = [])) := by
  constructor
  · intro k sx hk
    simp only [heapSet] at hk ⊢
    by_cases hks : k = sid
    · subst hks
      exact h.1 k s hg
    · rw [getAssoc_setAssoc_ne _ _ _ _ hks] at hk
      exact h.1 k sx hk
  · intro sid2 hsid2 hne
    obtain ⟨sx, hsx, hcx⟩ := h.2 sid2 (by rwa [heapSet_registry] at hsid2)
    refine ⟨sx, ?_, hcx⟩
    rw [heapGet_heapSet_ne _ _ _ _ hne]
    exact hsx

theorem invReg_heapSet_cond (st : ServerState) (sid : Nat) (s s2 : Session)
    (h : InvReg st) (hg : heapGet st sid = some s)
    (hcond : sid ∈ st.registry → ¬(s2.completed = true ∧ s2.listeners = [])) :
    InvReg (heapSet sid s2 st) := by
  obtain ⟨hb, hr2⟩ := invReg_parts_heapSet st sid s s2 h hg
  constructor
  · exact hb
  · intro sid2 hsid2
    by_cases hss : sid2 = sid
    · subst hss
      exact ⟨s2, heapGet_heapSet_self _ _ _,
        hcond (by rwa [heapSet_registry] at hsid2)⟩
    · exact hr2 sid2 hsid2 hss

theorem setAdd_ne_nil (l : List Nat) (c : Nat) : setAdd l c ≠ [] := by
  unfold setAdd
  by_cases hc : l.contains c = true
  · simp only [if_pos hc]
    intro hnil
    rw [hnil] at hc
    simp at hc
  · simp only [if_neg hc]
    simp

theorem invReg_emit (sid : Nat) (e : SessionEvent) (st : ServerState)
    (h : InvReg st) : InvReg (emit sid e st) := by
  cases hg : heapGet st sid with
  | none => simpa [emit, hg] using h
  | some s =>
      have he : emit sid e st
          = broadcast e s.listeners (heapSet sid { s with events := s.events ++ [e] } st) := by
        simp [emit, hg]
      rw [he]
      refine invReg_of_eq _ _ ?_ (broadcast_heap _ _ _) (broadcast_registry _ _ _)
        (broadcast_nextId _ _ _)
      refine invReg_heapSet_cond st sid s _ h hg ?_
      intro hmem hcc
      obtain ⟨sx, hsx, hcx⟩ := h.2 sid hmem
      have hxe : sx = s := Option.some_inj.mp (hsx.symm.trans hg)
      subst hxe
      exact hcx ⟨hcc.1, hcc.2⟩

theorem replayTo_nextId (c : Nat) (evs : List SessionEvent) (st : ServerState) :
    (replayTo c evs st).nextId = st.nextId := by
  induction evs generalizing st with
  | nil => rfl
  | cons e t ih => simp [replayTo] at ih ⊢; rw [ih]; rfl

theorem invReg_attach (sid c : Nat) (st : ServerState) (h : InvReg st) :
    InvReg ((handleStream sid c st).2) := by
  cases hsg : sessionsGet st sid with
  | none => simpa [handleStream, hsg] using h
  | some s =>
      have hg := (sessionsGet_some hsg).1
      have he : (handleStream sid c st).2
          = replayTo c s.events
              (heapSet sid { s with listeners := setAdd s.listeners c } st) := by
        simp [handleStream, hsg]
      rw [he]
      refine invReg_of_eq _ _ ?_ (replayTo_heap _ _ _) (replayTo_registry _ _ _)
        (replayTo_nextId _ _ _)
      refine invReg_heapSet_cond st sid s _ h hg ?_
      intro _ hcc
      exact setAdd_ne_nil _ _ hcc.2

theorem invReg_cleanup_of (st1 : ServerState) (sid : Nat) (s : Session)
    (hgs : heapGet st1 sid = some s)
    (hb : ∀ k sx, getAssoc st1.heap k = some sx → k < st1.nextId)
    (hr2 : ∀ sid2, sid2 ∈ st1.registry → sid2 ≠ sid →
      ∃ sx, heapGet st1 sid2 = some sx ∧ ¬(sx.completed = true ∧ sx.listeners = [])) :
    InvReg (cleanupSessionIfIdle sid st1) := by
  by_cases hcond : (s.completed && s.listeners.isEmpty) = true
  · have hcl : cleanupSessionIfIdle sid st1 = sessionsDelete sid st1 := by
      simp [cleanupSessionIfIdle, hgs, hcond]
    rw [hcl]
    constructor
    · intro k sx hk
      exact hb k sx hk
    · intro sid2 hsid2
      have hmem : sid2 ∈ st1.registry ∧ sid2 ≠ sid := by
        have := hsid2
        simp only [sessionsDelete, List.mem_filter] at this
        exact ⟨this.1, by simpa using this.2⟩
      obtain ⟨sx, hsx, hcx⟩ := hr2 sid2 hmem.1 hmem.2
      exact ⟨sx, hsx, hcx⟩
  · have hcl : cleanupSessionIfIdle sid st1 = st1 := by
      simp [cleanupSessionIfIdle, hgs, hcond]
    rw [hcl]
    constructor
    · exact hb
    · intro sid2 hsid2
      by_cases hss : sid2 = sid
      · subst hss
        refine ⟨s, hgs, ?_⟩
        intro hcc
        exact hcond ((destroyCond_iff s).mpr hcc)
      · exact hr2 sid2 hsid2 hss

theorem invReg_close (sid c : Nat) (st : ServerState) (h : InvReg st) :
    InvReg (handleClose sid c st) := by
  cases hg : heapGet st sid with
  | none => simpa [handleClose, hg] using h
  | some s =>
      have he : handleClose sid c st
          = cleanupSessionIfIdle sid
              (heapSet sid { s with listeners := setDelete s.listeners c } st) := by
        simp [handleClose, hg]
      rw [he]
      obtain ⟨hb3, hr3⟩ :=
        invReg_parts_heapSet st sid s { s with listeners := setDelete s.listeners c } h hg
      exact invReg_cleanup_of _ sid _ (heapGet_heapSet_self _ _ _) hb3 hr3

theorem invReg_emitAll (sid : Nat) (cbs : List AgentCallback) :
    ∀ st : ServerState, InvReg st →
      InvReg (cbs.foldl (fun acc cb => emit sid (callbackEvent cb) acc) st) := by
  induction cbs with
  | nil => intro st h; exact h
  | cons cb t ih =>
      intro st h
      rw [List.foldl_cons]
      exact ih _ (invReg_emit sid (callbackEvent cb) st h)

theorem invReg_finish (sid : Nat) (st2 : ServerState) (h2 : InvReg st2) :
    InvReg (cleanupSessionIfIdle sid (setCompleted sid st2)) := by
  cases hg2 : heapGet st2 sid with
  | none =>
      have hse : setCompleted sid st2 = st2 := by simp [setCompleted, hg2]
      rw [hse]
      have hcl : cleanupSessionIfIdle sid st2 = st2 := by
        simp [cleanupSessionIfIdle, hg2]
      rw [hcl]
      exact h2
  | some s =>
      have hse : setCompleted sid st2 = heapSet sid { s with completed := true } st2 := by
        simp [setCompleted, hg2]
      rw [hse]
      obtain ⟨hb3, hr3⟩ :=
        invReg_parts_heapSet st2 sid s { s with completed := true } h2 hg2
      exact invReg_cleanup_of _ sid _ (heapGet_heapSet_self _ _ _) hb3 hr3

theorem invReg_runAgent (sid : Nat) (p : String) (run : AgentRun) (st : ServerState)
    (h : InvReg st) : InvReg (runAgentForSession sid p run st) := by
  have h0 : InvReg { st with execCount := st.execCount + 1 } :=
    invReg_of_eq st _ h rfl rfl rfl
  have h1 : InvReg (run.callbacks.foldl (fun acc cb => emit sid (callbackEvent cb) acc)
      { st with execCount := st.execCount + 1 }) :=
    invReg_emitAll sid run.callbacks _ h0
  cases ho : run.outcome with
  | none =>
      have he : runAgentForSession sid p run st
          = cleanupSessionIfIdle sid (setCompleted sid
              (emit sid ⟨"complete", none⟩
                (run.callbacks.foldl (fun acc cb => emit sid (callbackEvent cb) acc)
                  { st with execCount := st.execCount + 1 }))) := by
        simp [runAgentForSession, ho]
      rw [he]
      exact invReg_finish sid _ (invReg_emit sid _ _ h1)
  | some err =>
      have he : runAgentForSession sid p run st
          = cleanupSessionIfIdle sid (setCompleted sid
              (emit sid ⟨"error", some (.messageData (errorMessage err))⟩
                (run.callbacks.foldl (fun acc cb => emit sid (callbackEvent cb) acc)
                  { st with execCount := st.execCount + 1 }))) := by
        simp [runAgentForSession, ho]
      rw [he]
      exact invReg_finish sid _ (invReg_emit sid _ _ h1)

theorem invReg_create (st : ServerState) (h : InvReg st) : InvReg (createSession st).2 := by
  obtain ⟨hb, hr⟩ := h
  have hheap : (createSession st).2.heap
      = setAssoc st.heap st.nextId ⟨st.nextId, [], [], false⟩ := rfl
  have hreg : (createSession st).2.registry = st.registry ++ [st.nextId] := rfl
  have hnext : (createSession st).2.nextId = st.nextId + 1 := rfl
  constructor
  · intro k sx hk
    rw [hheap] at hk
    rw [hnext]
    by_cases hks : k = st.nextId
    · omega
    · rw [getAssoc_setAssoc_ne _ _ _ _ hks] at hk
      exact Nat.lt_succ_of_lt (hb k sx hk)
  · intro sid hsid
    rw [hreg] at hsid
    rcases List.mem_append.mp hsid with hmem | hmem
    · obtain ⟨sx, hsx, hcx⟩ := hr sid hmem
      have hne : sid ≠ st.nextId := by
        have hlt := hb sid sx hsx
        omega
      refine ⟨sx, ?_, hcx⟩
      show getAssoc (createSession st).2.heap sid = some sx
      rw [hheap, getAssoc_setAssoc_ne _ _ _ _ hne]
      exact hsx
    · have hsn : sid = st.nextId := by simpa using hmem
      refine ⟨⟨st.nextId, [], [], false⟩, ?_, ?_⟩
      · show getAssoc (createSession st).2.heap sid = some ⟨st.nextId, [], [], false⟩
        rw [hheap, hsn]
        exact getAssoc_setAssoc_self _ _ _
      · intro hcc
        exact absurd hcc.1 (by simp)

theorem invReg_gstep (st : ServerState) (g : GOp) (h : InvReg st) :
    InvReg (gstep st g) := by
  cases g with
  | createOp => exact invReg_create st h
  | emitOp sid e => exact invReg_emit sid e st h
  | attachOp sid c => exact invReg_attach sid c st h
  | closeOp sid c => exact invReg_close sid c st h
  | runOp sid p run => exact invReg_runAgent sid p run st h

theorem invReg_init : InvReg initState := by
  constructor
  · intro k s hk
    simp [initState, getAssoc] at hk
  · intro sid hsid
    simp [initState] at hsid

theorem invReg_grun (ops : List GOp) : ∀ st : ServerState, InvReg st →
    InvReg (grun ops st) := by
  induction ops with
  | nil => intro st h; exact h
  | cons g t ih =>
      intro st h
      rw [grun, List.foldl_cons]
      exact ih _ (invReg_gstep st g h)

theorem cleanup_removed (st1 : ServerState) (sid2 sid : Nat)
    (h1 : sid ∈ st1.registry) (h2 : sid ∉ (cleanupSessionIfIdle sid2 st1).registry) :
    ∃ s, heapGet (cleanupSessionIfIdle sid2 st1) sid = some s ∧
      s.completed = true ∧ s.listeners = [] := by
  cases hg : heapGet st1 sid2 with
  | none =>
      have hcl : cleanupSessionIfIdle sid2 st1 = st1 := by
        simp [cleanupSessionIfIdle, hg]
      rw [hcl] at h2
      exact absurd h1 h2
  | some s =>
      by_cases hcond : (s.completed && s.listeners.isEmpty) = true
      · have hcl : cleanupSessionIfIdle sid2 st1 = sessionsDelete sid2 st1 := by
          simp [cleanupSessionIfIdle, hg, hcond]
        have hsid : sid = sid2 := by
          by_contra hne
          apply h2
          rw [hcl]
          exact List.mem_filter.mpr ⟨h1, by simpa using hne⟩
        subst hsid
        rw [hcl]
        exact ⟨s, hg, (destroyCond_iff s).mp hcond⟩
      · have hcl : cleanupSessionIfIdle sid2 st1 = st1 := by
          simp [cleanupSessionIfIdle, hg, hcond]
        rw [hcl] at h2
        exact absurd h1 h2

theorem handleStream_registry (sid c : Nat) (st : ServerState) :
    ((handleStream sid c st).2).registry = st.registry := by
  cases hsg : sessionsGet st sid with
  | none => simp [handleStream, hsg]
  | some s => simp [handleStream, hsg, replayTo_registry, heapSet_registry]

theorem emitAll_registry (sid : Nat) (cbs : List AgentCallback) :
    ∀ st : ServerState,
      (cbs.foldl (fun acc cb => emit sid (callbackEvent cb) acc) st).registry
        = st.registry := by
  induction cbs with
  | nil => intro st; rfl
  | cons cb t ih =>
      intro st
      rw [List.foldl_cons, ih]
      exact emit_registry sid (callbackEvent cb) st

theorem removal_condition (st : ServerState) (g : GOp) (sid : Nat)
    (h1 : sid ∈ st.registry) (h2 : sid ∉ (gstep st g).registry) :
    ∃ s, heapGet (gstep st g) sid = some s ∧ s.completed = true ∧ s.listeners = [] := by
  cases g with
  | createOp =>
      exfalso
      apply h2
      show sid ∈ ((createSession st).2).registry
      exact List.mem_append_left _ h1
  | emitOp sid2 e =>
      exfalso
      apply h2
      show sid ∈ (emit sid2 e st).registry
      rw [emit_registry]
      exact h1
  | attachOp sid2 c =>
      exfalso
      apply h2
      show sid ∈ ((handleStream sid2 c st).2).registry
      rw [handleStream_registry]
      exact h1
  | closeOp sid2 c =>
      cases hg : heapGet st sid2 with
      | none =>
          exfalso
          apply h2
          show sid ∈ (handleClose sid2 c st).registry
          simp [handleClose, hg]
          exact h1
      | some s =>
          have he : gstep st (GOp.closeOp sid2 c)
              = cleanupSessionIfIdle sid2
                  (heapSet sid2 { s with listeners := setDelete s.listeners c } st) := by
            simp [gstep, handleClose, hg]
          rw [he] at h2 ⊢
          exact cleanup_removed _ sid2 sid (by rwa [heapSet_registry]) h2
  | runOp sid2 p run =>
      cases ho : run.outcome with
      | none =>
          have he : gstep st (GOp.runOp sid2 p run)
              = cleanupSessionIfIdle sid2 (setCompleted sid2
                  (emit sid2 ⟨"complete", none⟩
                    (run.callbacks.foldl (fun acc cb => emit sid2 (callbackEvent cb) acc)
                      { st with execCount := st.execCount + 1 }))) := by
            simp [gstep, runAgentForSession, ho]
          rw [he] at h2 ⊢
          refine cleanup_removed _ sid2 sid ?_ h2
          rw [setCompleted_registry, emit_registry, emitAll_registry]
          exact h1
      | some err =>
          have he : gstep st (GOp.runOp sid2 p run)
              = cleanupSessionIfIdle sid2 (setCompleted sid2
                  (emit sid2 ⟨"error", some (.messageData (errorMessage err))⟩
                    (run.callbacks.foldl (fun acc cb => emit sid2 (callbackEvent cb) acc)
                      { st with execCount := st.execCount + 1 }))) := by
            simp [gstep, runAgentForSession, ho]
          rw [he] at h2 ⊢
          refine cleanup_removed _ sid2 sid ?_ h2
          rw [setCompleted_registry, emit_registry, emitAll_registry]
          exact h1

end Web

/-- C2: along every whole-server schedule from the initial state, every
identifier present in the registry maps to a created session object that
never satisfies the destroy condition (completed with an empty observer set)
— the condition is re-checked after every detach and after run completion
and acted on at once — and a step removes an identifier from the registry
only when, at that step, the session is completed and its observer set is
empty. -/
theorem registry_membership_reclaim (ops : List GOp) (sid : Nat) :
    (sid ∈ (grun ops initState).registry →
      ∃ s, heapGet (grun ops initState) sid = some s ∧
        ¬(s.completed = true ∧ s.listeners = [])) ∧
    (∀ g : GOp, sid ∈ (grun ops initState).registry →
      sid ∉ (gstep (grun ops initState) g).registry →
      ∃ s, heapGet (gstep (grun ops initState) g) sid = some s ∧
        s.completed = true ∧ s.listeners = []) :=
  ⟨fun h => (invReg_grun ops initState invReg_init).2 sid h,
   fun g h1 h2 => removal_condition _ g sid h1 h2⟩

/-- Witness for C2: after one create step, identifier 0 is registered and its
session is fresh; closing the only (absent) observer of the completed variant
is exercised through the theorem's second part elsewhere. -/
theorem registry_membership_reclaim_witness :
    (0 ∈ (grun [GOp.createOp] initState).registry) ∧
    (∃ s, heapGet (grun [GOp.createOp] initState) 0 = some s ∧
      ¬(s.completed = true ∧ s.listeners = [])) :=
  ⟨by decide, (registry_membership_reclaim [GOp.createOp] 0).1 (by decide)⟩
